import Mathlib

/-!
A shallow embedding of the `groundhog` rolling-timer library and its two
adapters, with theorems checking the natural-language specification against
the code.

Sources embedded:
* `src/core/src/std_timer.rs` — the software clock adapter `Timer<TPS>`.
* `src/drivers/groundhog-nrf52/src/lib.rs` — the nRF52 hardware adapter
  `GlobalRollingTimer` (global pointer registration, `Monotonic` instance,
  busy-wait delays).

The `RollingTimer` trait's derived operations (`ticks_since`, `millis_since`,
`micros_since`) live in the core crate's `lib.rs`, which is not part of the
provided sources; those are modelled from the specification's formulas.

Machine integers are modelled as `Nat` with explicit reduction modulo `2^32`
where 32-bit wraparound matters; fallible operations (a Rust panic such as
division by zero) return `Option`.
-/

namespace Groundhog

/-- Width of the tick counter of both adapters: `type Tick = u32`, so
arithmetic wraps modulo `2^32`. -/
def tickModulus : Nat := 2 ^ 32

/-- Modelled from the spec: the `RollingTimer` trait's derived operation
`ticks_since(reference)` = `(get_ticks() - reference) mod 2^W` with `W = 32`,
wraparound (modular) subtraction of the reference from the current tick
value.  The trait's default implementation is in the core crate's `lib.rs`,
which is not among the provided sources.  `now` is the value `get_ticks()`
returned at the moment of the call. -/
def ticks_since (now reference : Nat) : Nat :=
  (((now : Int) - (reference : Int)) % (tickModulus : Int)).toNat

/-- Modelled from the spec: `millis_since(reference)` =
`elapsed_ticks * 1000 / rate`, truncating integer division, with arithmetic
wide enough not to overflow (modelled exactly on `Nat`).  The implementation
is in the core crate's `lib.rs`, not among the provided sources. -/
def millis_since (now reference rate : Nat) : Nat :=
  ticks_since now reference * 1000 / rate

/-- Modelled from the spec: `micros_since(reference)` =
`elapsed_ticks * 1_000_000 / rate`, truncating integer division.  The
implementation is in the core crate's `lib.rs`, not among the provided
sources. -/
def micros_since (now reference rate : Nat) : Nat :=
  ticks_since now reference * 1000000 / rate

/-! ## Software clock adapter, `src/core/src/std_timer.rs`

```rust
const NANOS_PER_TICK: u128 = 1_000_000_000 / (TPS as u128);

fn get_ticks(&self) -> Self::Tick {
    let ticks = Instant::now()
        .checked_duration_since(*T0)
        .unwrap_or_else(|| Duration::from_secs(0));
    let tnanos = ticks.as_nanos();
    let div = tnanos / Self::NANOS_PER_TICK;
    (div & 0xFFFF_FFFF) as u32
}
```

Instants are modelled as nanosecond counts on an absolute timeline: `now` is
the host monotonic clock's reading at the call, `t0` the shared reference
instant `T0`.  `checked_duration_since` yields `None` when the argument is
later than `self`, so with the `unwrap_or_else` the elapsed duration is `0`
when `now < t0` and `now - t0` otherwise.  Rust `u128` division panics when
the divisor is zero (which happens exactly when `TPS > 10^9`); the panic is
modelled as `none`. -/

namespace Timer

/-- Constant `Timer::<TPS>::NANOS_PER_TICK = 1_000_000_000 / (TPS as u128)`,
truncating integer division. -/
def NANOS_PER_TICK (TPS : Nat) : Nat := 1000000000 / TPS

/-- Elapsed `Duration` computed in `get_ticks`, in nanoseconds:
`Instant::now().checked_duration_since(*T0)` defaulted to zero when the
clock reads before the reference instant. -/
def elapsedNanos (now t0 : Nat) : Nat := if now < t0 then 0 else now - t0

/-- Method `Timer::<TPS>::get_ticks()` for a monotonic-clock reading `now`
and shared reference instant `t0` (both in nanoseconds).  `none` models the
division-by-zero panic of `tnanos / NANOS_PER_TICK` when
`NANOS_PER_TICK TPS = 0`. -/
def get_ticks (TPS now t0 : Nat) : Option Nat :=
  if NANOS_PER_TICK TPS = 0 then none
  else some ((elapsedNanos now t0 / NANOS_PER_TICK TPS) &&& 0xFFFFFFFF)

/-- Method `Timer::<TPS>::is_initialized()`, the constant `true`. -/
def is_initialized : Bool := true

end Timer

/-! ## Hardware adapter, `src/drivers/groundhog-nrf52/src/lib.rs`

The process-wide binding `static TIMER_PTR: AtomicPtr<RegBlock0>` is modelled
as an `Option Nat`: `none` is the null pointer, `some t` a registered timer
peripheral identified by `t`.  The free-running hardware counter is external
to the program; a call that captures it is given the captured register value
as an argument (`hw`), and a spinning loop is given the stream of values its
successive captures would read (`hw : Nat → Nat`). -/

namespace GlobalRollingTimer

/-- State of `static TIMER_PTR: AtomicPtr<RegBlock0>`; `none` is the null
pointer it is initialized with. -/
abbrev TimerPtr := Option Nat

/-- Constant `TICKS_PER_SECOND` of the `RollingTimer` impl for
`GlobalRollingTimer`. -/
def TICKS_PER_SECOND : Nat := 1000000

/-- Method `GlobalRollingTimer::get_ticks()`: when `TIMER_PTR` is non-null it
triggers a capture and reads the 32-bit counter register (`hw` is the value
the capture latches, reduced to a `u32`); when null it returns 0. -/
def get_ticks (ptr : TimerPtr) (hw : Nat) : Nat :=
  match ptr with
  | some _ => hw % tickModulus
  | none => 0

/-- Method `GlobalRollingTimer::is_initialized()`:
`TIMER_PTR.load(...) != null`. -/
def is_initialized (ptr : TimerPtr) : Bool := ptr.isSome

/-- Function `GlobalRollingTimer::init(timer)`.  The peripheral configuration
(`set_periodic`, `timer_start(0xFFFF_FFFF)`) touches only the opaque
hardware; the state change is
`let old_ptr = TIMER_PTR.swap(t0, SeqCst); debug_assert!(old_ptr == null)`.
`dbgAssert` says whether the build has debug assertions enabled
(`debug_assert!` is compiled out otherwise).  Returns
(assertion failure fired, new `TIMER_PTR` state). -/
def init (dbgAssert : Bool) (ptr : TimerPtr) (t : Nat) : Bool × TimerPtr :=
  let old_ptr := ptr
  (dbgAssert && old_ptr.isSome, some t)

/-- One observable call on the adapter: a `get_ticks` (with the register
value a capture would latch) or an `is_initialized`. -/
inductive Call
  | getTicks (hw : Nat)
  | isInit
deriving DecidableEq, Repr

/-- Result of a call: a tick value or an initialization flag. -/
abbrev CallResult := Nat ⊕ Bool

/-- Execute one call against the `TIMER_PTR` state.  Neither method writes
`TIMER_PTR`, which the returned state makes explicit. -/
def callStep (ptr : TimerPtr) : Call → CallResult × TimerPtr
  | .getTicks hw => (Sum.inl (get_ticks ptr hw), ptr)
  | .isInit => (Sum.inr (is_initialized ptr), ptr)

/-- Execute a sequence of calls, threading the `TIMER_PTR` state. -/
def runCalls (ptr : TimerPtr) : List Call → List CallResult × TimerPtr
  | [] => ([], ptr)
  | c :: cs =>
    let (o, ptr') := callStep ptr c
    let (os, ptrF) := runCalls ptr' cs
    (o :: os, ptrF)

/-- Body of the `while` loop of `DelayUs::delay_us`: at poll `i` it evaluates
`self.ticks_since(start)`, i.e. `ticks_since` of a fresh `get_ticks()`
reading (the `i`-th capture, register value `hw i`) against `start`; it keeps
spinning while that is `< us`.  `fuel` bounds the number of polls so the
model stays total; `none` means the loop was still spinning when the fuel ran
out, and `some i` that it exited after the poll with index `i`. -/
def delayUsLoop (ptr : TimerPtr) (hw : Nat → Nat) (start us : Nat) :
    Nat → Nat → Option Nat
  | _, 0 => none
  | i, fuel + 1 =>
    if ticks_since (get_ticks ptr (hw i)) start < us then
      delayUsLoop ptr hw start us (i + 1) fuel
    else
      some i

/-- Method `DelayUs::delay_us(us)` started at poll index `j`:
`let start = self.get_ticks();` captures the counter once at entry (poll
`j`), then the loop polls at `j+1, j+2, ...`.  Returns the poll index at
which the wait ended. -/
def delay_us_at (ptr : TimerPtr) (hw : Nat → Nat) (us fuel j : Nat) :
    Option Nat :=
  delayUsLoop ptr hw (get_ticks ptr (hw j)) us (j + 1) fuel

/-- Method `DelayUs::delay_us(us)` (entry capture at poll index 0). -/
def delay_us (ptr : TimerPtr) (hw : Nat → Nat) (us fuel : Nat) : Option Nat :=
  delay_us_at ptr hw us fuel 0

/-- Method `DelayMs::delay_ms(ms)`: `for _ in 0..ms { self.delay_us(1000) }`,
each iteration continuing from the poll index where the previous one ended. -/
def delay_ms (ptr : TimerPtr) (hw : Nat → Nat) :
    Nat → Nat → Nat → Option Nat
  | 0, _, j => some j
  | ms + 1, fuel, j =>
    match delay_us_at ptr hw 1000 fuel j with
    | none => none
    | some j' => delay_ms ptr hw ms fuel j'

/-- Written from the spec's words, for comparison with `delay_ms`: the
millisecond busy-wait as an `ms`-fold repetition of the microsecond
busy-wait with threshold 1000, never one single larger wait. -/
def repeatDelayUs (ptr : TimerPtr) (hw : Nat → Nat) (fuel : Nat) :
    Nat → Nat → Option Nat
  | 0, j => some j
  | n + 1, j => (delay_us_at ptr hw 1000 fuel j).bind (repeatDelayUs ptr hw fuel n)

/-- Reinterpretation of a `u32` value as an `i32` (`as i32` cast, two's
complement): used by `Monotonic::now`. -/
def asI32 (n : Nat) : Int :=
  if n % tickModulus < 2 ^ 31 then ((n % tickModulus : Nat) : Int)
  else ((n % tickModulus : Nat) : Int) - (tickModulus : Int)

/-- Method `Monotonic::now()` for `GlobalRollingTimer`:
`self.get_ticks() as i32`. -/
def now (ptr : TimerPtr) (hw : Nat) : Int := asI32 (get_ticks ptr hw)

/-- Method `Monotonic::zero()` for `GlobalRollingTimer`: the constant `0`. -/
def zero : Int := 0

end GlobalRollingTimer

/-! ## Theorems -/

theorem tickModulus_pos : 0 < tickModulus := by norm_num [tickModulus]

/-- C1: for every pair of tick values `start, now` in `[0, 2^32)`,
`ticks_since` computed at a moment when `get_ticks()` returns `now` yields
exactly `(now - start) mod 2^32`: the result is the unique value `d < 2^32`
with `(start + d) ≡ now (mod 2^32)`; concretely it is `now - start` without
a rollover and `now + 2^32 - start` across one rollover, so a single counter
rollover between the reference and now produces the correct small positive
elapsed value. -/
theorem ticks_since_spec (start now : Nat)
    (hs : start < tickModulus) (hn : now < tickModulus) :
    ticks_since now start < tickModulus ∧
    (start + ticks_since now start) % tickModulus = now ∧
    (∀ d, d < tickModulus → (start + d) % tickModulus = now →
      d = ticks_since now start) ∧
    (start ≤ now → ticks_since now start = now - start) ∧
    (now < start → ticks_since now start = now + tickModulus - start) := by
  simp only [ticks_since, tickModulus] at *
  refine ⟨by omega, by omega, ?_, by omega, by omega⟩
  intro d hd hmod
  omega

/-- C1 witness: across the wrap boundary, `start = 2^32 - 5` and `now = 3`
give elapsed ticks 8. -/
theorem ticks_since_spec_witness :
    tickModulus - 5 < tickModulus ∧ 3 < tickModulus ∧
    ticks_since 3 (tickModulus - 5) = 3 + tickModulus - (tickModulus - 5) ∧
    ticks_since 3 (tickModulus - 5) = 8 := by
  have h := ticks_since_spec (tickModulus - 5) 3
    (by norm_num [tickModulus]) (by norm_num [tickModulus])
  refine ⟨by norm_num [tickModulus], by norm_num [tickModulus],
    h.2.2.2.2 (by norm_num [tickModulus]), ?_⟩
  rw [h.2.2.2.2 (by norm_num [tickModulus])]
  norm_num [tickModulus]

/-- C2: for every rate `R > 0` and elapsed tick count
`T = ticks_since now reference`, `millis_since` returns exactly
`floor(T * 1000 / R)` — characterized as the unique truncating quotient:
`R * m ≤ T * 1000 < R * (m + 1)` — and `micros_since` returns exactly
`floor(T * 1_000_000 / R)`. -/
theorem millis_micros_since_floor (now reference rate : Nat) (hr : 0 < rate) :
    rate * millis_since now reference rate ≤ ticks_since now reference * 1000 ∧
    ticks_since now reference * 1000 < rate * (millis_since now reference rate + 1) ∧
    rate * micros_since now reference rate ≤ ticks_since now reference * 1000000 ∧
    ticks_since now reference * 1000000 < rate * (micros_since now reference rate + 1) := by
  unfold millis_since micros_since
  have h1 := Nat.div_add_mod (ticks_since now reference * 1000) rate
  have h2 := Nat.mod_lt (ticks_since now reference * 1000) hr
  have h3 := Nat.div_add_mod (ticks_since now reference * 1000000) rate
  have h4 := Nat.mod_lt (ticks_since now reference * 1000000) hr
  have e2 : rate * (ticks_since now reference * 1000 / rate + 1)
      = rate * (ticks_since now reference * 1000 / rate) + rate := by ring
  have e4 : rate * (ticks_since now reference * 1000000 / rate + 1)
      = rate * (ticks_since now reference * 1000000 / rate) + rate := by ring
  refine ⟨by omega, by omega, by omega, by omega⟩

/-- C2 witness: rate `R = 1_000_000` and elapsed ticks `T = 1_500_000`
(reference 0, now 1_500_000) give 1500 ms. -/
theorem millis_micros_since_floor_witness :
    0 < 1000000 ∧
    (1000000 * millis_since 1500000 0 1000000 ≤ ticks_since 1500000 0 * 1000 ∧
      ticks_since 1500000 0 * 1000 < 1000000 * (millis_since 1500000 0 1000000 + 1) ∧
      1000000 * micros_since 1500000 0 1000000 ≤ ticks_since 1500000 0 * 1000000 ∧
      ticks_since 1500000 0 * 1000000 < 1000000 * (micros_since 1500000 0 1000000 + 1)) ∧
    ticks_since 1500000 0 = 1500000 ∧
    millis_since 1500000 0 1000000 = 1500 := by
  refine ⟨by norm_num, millis_micros_since_floor 1500000 0 1000000 (by norm_num), by decide, by decide⟩

theorem and_mask32_eq_mod (n : Nat) : n &&& 0xFFFFFFFF = n % tickModulus := by
  have h : (0xFFFFFFFF : Nat) = 2 ^ 32 - 1 := by norm_num
  rw [h, Nat.and_pow_two_sub_one_eq_mod, tickModulus]

/-- C3: for the software adapter with rate `TPS` (positive and at most
`10^9`, so that the tick length in nanoseconds is nonzero) and a clock
reading at or after the shared reference instant, `get_ticks()` returns
`floor(elapsed_nanoseconds / floor(10^9 / TPS))` masked to the low 32 bits,
the divisor being the truncating division `NANOS_PER_TICK`. -/
theorem Timer.get_ticks_formula (TPS now t0 : Nat)
    (h1 : 0 < TPS) (h2 : TPS ≤ 1000000000) (h3 : t0 ≤ now) :
    Timer.get_ticks TPS now t0 =
      some (((now - t0) / (1000000000 / TPS)) % tickModulus) := by
  have hd : 0 < 1000000000 / TPS := Nat.div_pos h2 h1
  simp only [Timer.get_ticks, Timer.elapsedNanos, Timer.NANOS_PER_TICK]
  rw [if_neg (by omega), if_neg (by omega), and_mask32_eq_mod]

/-- C3 witness: at rate `10^6` (1000 ns per tick), 2500 ns after a reference
at 500 ns, `get_ticks` reads `2000 / 1000 = 2` ticks. -/
theorem Timer.get_ticks_formula_witness :
    0 < 1000000 ∧ (1000000 : Nat) ≤ 1000000000 ∧ (500 : Nat) ≤ 2500 ∧
    Timer.get_ticks 1000000 2500 500 =
      some (((2500 - 500) / (1000000000 / 1000000)) % tickModulus) ∧
    Timer.get_ticks 1000000 2500 500 = some 2 := by
  refine ⟨by norm_num, by norm_num, by norm_num,
    Timer.get_ticks_formula 1000000 2500 500 (by norm_num) (by norm_num) (by norm_num), ?_⟩
  decide

/-- C4 counterexample: the rate `TPS = 2 * 10^9` is strictly positive, yet
`get_ticks` panics (division by zero, since `NANOS_PER_TICK = 10^9 / TPS`
truncates to 0), modelled as `none` — so not every call at a strictly
positive rate is total. -/
theorem Timer.get_ticks_rate_over_1e9_panics :
    0 < 2000000000 ∧ Timer.get_ticks 2000000000 5 0 = none := by
  exact ⟨by norm_num, by decide⟩

/-- C4 amended: for every rate `TPS` with `0 < TPS ≤ 10^9` (so that
`NANOS_PER_TICK` is nonzero), every call to the software adapter's
`get_ticks()` is total: it returns a well-defined 32-bit tick value, with no
panic or other failure branch reachable. -/
theorem Timer.get_ticks_total (TPS now t0 : Nat)
    (h1 : 0 < TPS) (h2 : TPS ≤ 1000000000) :
    ∃ v, Timer.get_ticks TPS now t0 = some v ∧ v < tickModulus := by
  have hd : 0 < 1000000000 / TPS := Nat.div_pos h2 h1
  refine ⟨(Timer.elapsedNanos now t0 / (1000000000 / TPS)) &&& 0xFFFFFFFF, ?_, ?_⟩
  · simp only [Timer.get_ticks, Timer.NANOS_PER_TICK]
    rw [if_neg (by omega)]
  · rw [and_mask32_eq_mod]
    exact Nat.mod_lt _ tickModulus_pos

/-- C4 amended witness: at rate `10^6` every call returns a 32-bit value. -/
theorem Timer.get_ticks_total_witness :
    0 < 1000000 ∧ (1000000 : Nat) ≤ 1000000000 ∧
    (∃ v, Timer.get_ticks 1000000 123456 0 = some v ∧ v < tickModulus) := by
  exact ⟨by norm_num, by norm_num,
    Timer.get_ticks_total 1000000 123456 0 (by norm_num) (by norm_num)⟩

/-- C9: in the software adapter's `get_ticks()`, a monotonic-clock reading
earlier than the shared reference instant is treated as elapsed duration 0,
so `get_ticks` returns 0 rather than underflowing or failing; for every
reading at or after the reference the guard leaves the elapsed duration —
and hence the result — unchanged at the unguarded value `now - t0`. -/
theorem Timer.get_ticks_clock_guard (TPS now t0 : Nat)
    (h1 : 0 < TPS) (h2 : TPS ≤ 1000000000) :
    (now < t0 →
      Timer.elapsedNanos now t0 = 0 ∧ Timer.get_ticks TPS now t0 = some 0) ∧
    (t0 ≤ now →
      Timer.elapsedNanos now t0 = now - t0 ∧
      Timer.get_ticks TPS now t0 =
        some (((now - t0) / Timer.NANOS_PER_TICK TPS) &&& 0xFFFFFFFF)) := by
  have hd : 0 < 1000000000 / TPS := Nat.div_pos h2 h1
  constructor
  · intro hlt
    have he : Timer.elapsedNanos now t0 = 0 := by
      simp only [Timer.elapsedNanos, if_pos hlt]
    refine ⟨he, ?_⟩
    simp only [Timer.get_ticks, Timer.NANOS_PER_TICK, he]
    rw [if_neg (by omega), Nat.zero_div, Nat.zero_and]
  · intro hge
    have he : Timer.elapsedNanos now t0 = now - t0 := by
      simp only [Timer.elapsedNanos, if_neg (by omega : ¬ now < t0)]
    refine ⟨he, ?_⟩
    simp only [Timer.get_ticks, Timer.NANOS_PER_TICK, he]
    rw [if_neg (by omega)]

/-- C9 witness: at rate `1000`, a clock reading 5 ns against a reference at
10 ns yields 0 ticks; a reading 10 ns against a reference at 5 ns keeps the
unguarded elapsed duration of 5 ns. -/
theorem Timer.get_ticks_clock_guard_witness :
    0 < 1000 ∧ (1000 : Nat) ≤ 1000000000 ∧ (5 : Nat) < 10 ∧
    Timer.get_ticks 1000 5 10 = some 0 ∧
    Timer.elapsedNanos 10 5 = 10 - 5 := by
  refine ⟨by norm_num, by norm_num, by norm_num, ?_, ?_⟩
  · exact ((Timer.get_ticks_clock_guard 1000 5 10 (by norm_num) (by norm_num)).1
      (by norm_num)).2
  · exact ((Timer.get_ticks_clock_guard 1000 10 5 (by norm_num) (by norm_num)).2
      (by norm_num)).1

/-- C5: before the one-time registration (state `none`, the null
`TIMER_PTR`), every `get_ticks()` call returns 0 and every
`is_initialized()` call returns `false`, for any number of calls in any
order, and no call in the unregistered state changes that state. -/
theorem uninitialized_calls_spec (calls : List GlobalRollingTimer.Call) :
    GlobalRollingTimer.runCalls none calls =
      (calls.map fun c => match c with
        | .getTicks _ => Sum.inl 0
        | .isInit => Sum.inr false,
       none) := by
  induction calls with
  | nil => rfl
  | cons c cs ih =>
    cases c <;>
      simp [GlobalRollingTimer.runCalls, GlobalRollingTimer.callStep,
        GlobalRollingTimer.get_ticks, GlobalRollingTimer.is_initialized, ih]

/-- C6 counterexample: with debug assertions disabled (`debug_assert!` is
compiled out in release builds), a second `init` after a first binding of
timer 1 fires no assertion and silently replaces the binding with timer 2 —
so the second call is neither rejected by an assertion nor prevented from
overwriting the first binding. -/
theorem init_double_silent_overwrite :
    (GlobalRollingTimer.init false (some 1) 2).1 = false ∧
    (GlobalRollingTimer.init false (some 1) 2).2 = some 2 ∧
    (GlobalRollingTimer.init false (some 1) 2).2 ≠ some 1 := by
  refine ⟨rfl, rfl, by decide⟩

/-- C6 amended: a second initialization after a first binding trips the
`debug_assert!` (fatal, not recovered) exactly when the build has debug
assertions enabled; in every build the `swap` installs the new timer
unconditionally, replacing the first binding before the old value is
checked — silently so when debug assertions are disabled.  A first
initialization from the null state never trips the assertion. -/
theorem init_swap_then_assert (dbgAssert : Bool) (t1 t2 : Nat) :
    (GlobalRollingTimer.init dbgAssert (some t1) t2).1 = dbgAssert ∧
    (GlobalRollingTimer.init dbgAssert (some t1) t2).2 = some t2 ∧
    (GlobalRollingTimer.init dbgAssert none t1).1 = false ∧
    (GlobalRollingTimer.init dbgAssert none t1).2 = some t1 := by
  cases dbgAssert <;> simp [GlobalRollingTimer.init]

theorem delayUsLoop_exit (ptr : GlobalRollingTimer.TimerPtr) (hw : Nat → Nat)
    (start us : Nat) :
    ∀ fuel i j, GlobalRollingTimer.delayUsLoop ptr hw start us i fuel = some j →
      us ≤ ticks_since (GlobalRollingTimer.get_ticks ptr (hw j)) start := by
  intro fuel
  induction fuel with
  | zero => intro i j h; simp [GlobalRollingTimer.delayUsLoop] at h
  | succ f ih =>
    intro i j h
    simp only [GlobalRollingTimer.delayUsLoop] at h
    by_cases hc : ticks_since (GlobalRollingTimer.get_ticks ptr (hw i)) start < us
    · rw [if_pos hc] at h
      exact ih (i + 1) j h
    · rw [if_neg hc] at h
      cases h
      omega

/-- C7: the microsecond busy-wait `delay_us(us)` captures
`start = get_ticks()` once at entry (poll 0) and spins reading `get_ticks()`
until `ticks_since(start) >= us`, returning only then: whenever the loop
exits at poll `i`, at least `us` ticks have elapsed (modulo `2^32`) since
the captured start; and `delay_us(0)` returns at the very first condition
check, without waiting. -/
theorem delay_us_spec (ptr : GlobalRollingTimer.TimerPtr) (hw : Nat → Nat)
    (fuel : Nat) :
    (∀ us i, GlobalRollingTimer.delay_us ptr hw us fuel = some i →
      us ≤ ticks_since (GlobalRollingTimer.get_ticks ptr (hw i))
             (GlobalRollingTimer.get_ticks ptr (hw 0))) ∧
    (0 < fuel → GlobalRollingTimer.delay_us ptr hw 0 fuel = some 1) := by
  constructor
  · intro us i h
    exact delayUsLoop_exit ptr hw _ us fuel 1 i h
  · intro hf
    cases fuel with
    | zero => omega
    | succ f =>
      simp [GlobalRollingTimer.delay_us, GlobalRollingTimer.delay_us_at,
        GlobalRollingTimer.delayUsLoop]

/-- C7 witness: with the counter advancing 100 ticks per poll, a 250 µs wait
exits at poll 3, where 300 ≥ 250 ticks have elapsed since the entry capture;
a 0 µs wait exits at the first check. -/
theorem delay_us_spec_witness :
    GlobalRollingTimer.delay_us (some 0) (fun i => 100 * i) 250 10 = some 3 ∧
    250 ≤ ticks_since (GlobalRollingTimer.get_ticks (some 0) (100 * 3))
            (GlobalRollingTimer.get_ticks (some 0) (100 * 0)) ∧
    0 < 10 ∧
    GlobalRollingTimer.delay_us (some 0) (fun i => 100 * i) 0 10 = some 1 := by
  have hrun : GlobalRollingTimer.delay_us (some 0) (fun i => 100 * i) 250 10 =
      some 3 := by decide
  refine ⟨hrun, ?_, by norm_num, ?_⟩
  · exact (delay_us_spec (some 0) (fun i => 100 * i) 10).1 250 3 hrun
  · exact (delay_us_spec (some 0) (fun i => 100 * i) 10).2 (by norm_num)

/-- C8: the millisecond busy-wait `delay_ms(ms)` is exactly an `ms`-fold
repetition of the microsecond busy-wait with threshold 1000 — one
`delay_us(1000)` per requested millisecond, each continuing from where the
previous ended, never one single larger wait — and 1000 ticks is exactly one
millisecond's worth of ticks at the adapter's rate `TICKS_PER_SECOND`. -/
theorem delay_ms_repeats_delay_us (ptr : GlobalRollingTimer.TimerPtr)
    (hw : Nat → Nat) (ms fuel j : Nat) :
    GlobalRollingTimer.delay_ms ptr hw ms fuel j =
      GlobalRollingTimer.repeatDelayUs ptr hw fuel ms j ∧
    1000 = GlobalRollingTimer.TICKS_PER_SECOND / 1000 := by
  refine ⟨?_, by norm_num [GlobalRollingTimer.TICKS_PER_SECOND]⟩
  induction ms generalizing j with
  | zero => rfl
  | succ m ih =>
    simp only [GlobalRollingTimer.delay_ms, GlobalRollingTimer.repeatDelayUs]
    cases GlobalRollingTimer.delay_us_at ptr hw 1000 fuel j with
    | none => rfl
    | some j' => simpa using ih j'

/-- C10: the scheduler integration's `now()` returns exactly the current
32-bit tick value reinterpreted as a signed 32-bit integer — a bijection on
tick values `[0, 2^32)` (injective there, and onto the `i32` range
`[-2^31, 2^31)`) under which every tick value `≥ 2^31` is reported as a
negative instant — and `zero()` always returns 0 regardless of timer
state. -/
theorem monotonic_now_zero_spec :
    (∀ (ptr : GlobalRollingTimer.TimerPtr) (hw : Nat),
      GlobalRollingTimer.now ptr hw =
        GlobalRollingTimer.asI32 (GlobalRollingTimer.get_ticks ptr hw)) ∧
    (∀ a b, a < tickModulus → b < tickModulus →
      GlobalRollingTimer.asI32 a = GlobalRollingTimer.asI32 b → a = b) ∧
    (∀ z : Int, -(2 ^ 31) ≤ z → z < 2 ^ 31 →
      ∃ a, a < tickModulus ∧ GlobalRollingTimer.asI32 a = z) ∧
    (∀ a, 2 ^ 31 ≤ a → a < tickModulus → GlobalRollingTimer.asI32 a < 0) ∧
    GlobalRollingTimer.zero = 0 := by
  refine ⟨fun ptr hw => rfl, ?_, ?_, ?_, rfl⟩
  · intro a b ha hb h
    simp only [GlobalRollingTimer.asI32, tickModulus] at h ha hb
    rw [Nat.mod_eq_of_lt ha, Nat.mod_eq_of_lt hb] at h
    split_ifs at h <;> omega
  · intro z h1 h2
    by_cases hz : 0 ≤ z
    · refine ⟨z.toNat, by simp only [tickModulus]; omega, ?_⟩
      simp only [GlobalRollingTimer.asI32, tickModulus]
      rw [Nat.mod_eq_of_lt (by omega)]
      rw [if_pos (by omega)]
      omega
    · refine ⟨(z + 2 ^ 32).toNat, by simp only [tickModulus]; omega, ?_⟩
      simp only [GlobalRollingTimer.asI32, tickModulus]
      rw [Nat.mod_eq_of_lt (by omega)]
      rw [if_neg (by omega)]
      omega
  · intro a h1 h2
    simp only [GlobalRollingTimer.asI32, tickModulus] at h2 ⊢
    rw [Nat.mod_eq_of_lt h2]
    rw [if_neg (by omega)]
    omega

/-- C10 witness: the tick value `2^31` is reported as a negative instant,
`now()` on an initialized timer reading 5 is the `i32` reinterpretation of
`get_ticks`, and `zero()` is 0. -/
theorem monotonic_now_zero_spec_witness :
    (2 : Nat) ^ 31 ≤ 2 ^ 31 ∧ (2 : Nat) ^ 31 < tickModulus ∧
    GlobalRollingTimer.asI32 (2 ^ 31) < 0 ∧
    GlobalRollingTimer.now (some 0) 5 =
      GlobalRollingTimer.asI32 (GlobalRollingTimer.get_ticks (some 0) 5) ∧
    GlobalRollingTimer.zero = 0 := by
  refine ⟨le_refl _, by norm_num [tickModulus], ?_, ?_, ?_⟩
  · exact monotonic_now_zero_spec.2.2.2.1 (2 ^ 31) (le_refl _)
      (by norm_num [tickModulus])
  · exact monotonic_now_zero_spec.1 (some 0) 5
  · exact monotonic_now_zero_spec.2.2.2.2

end Groundhog
